import Mathlib

/-!
Verification of the URL-normalization / share-link-resolution subsystem and
the OAuth-token-caching HTTP client of the reddit-summarizer repository.

The TypeScript sources are shallowly embedded as executable Lean functions.
JavaScript strings are modelled as Lean strings operated on through their
character lists; JavaScript exceptions are modelled with Option/Except;
the asynchronous network calls (fetch) are modelled by passing the network
response (or none, standing for a rejected promise) as an explicit argument.
-/

namespace RedditSummarizer

/-! ## JavaScript string primitives (modelled over character lists) -/

/-- Whitespace characters removed by String.prototype.trim (ASCII subset;
sufficient for every string this development evaluates). -/
def jsIsWhite (c : Char) : Bool :=
  c == ' ' || c == '\t' || c == '\n' || c == '\r' || c == '\x0b' || c == '\x0c'

/-- Model of JavaScript String.prototype.trim. -/
def jsTrim (s : String) : String :=
  ⟨((s.data.dropWhile jsIsWhite).reverse.dropWhile jsIsWhite).reverse⟩

/-- Split a character list on a separator character; like JS String.split
with a single-character separator (an empty input yields one empty piece). -/
def splitCharAux (sep : Char) : List Char → List (List Char)
  | [] => [[]]
  | c :: rest =>
    if c = sep then [] :: splitCharAux sep rest
    else
      match splitCharAux sep rest with
      | [] => [[c]]
      | h :: t => (c :: h) :: t

/-- Model of JS s.split(sep) for a one-character separator. -/
def jsSplit (sep : Char) (s : String) : List String :=
  (splitCharAux sep s.data).map String.mk

/-- Model of JS a.startsWith(b). -/
def strStarts (s patt : String) : Bool := patt.data.isPrefixOf s.data

/-- Model of JS a.endsWith(b). -/
def strEnds (s patt : String) : Bool := patt.data.isSuffixOf s.data

/-- Model of JS s.replace(/X$/, '') for a literal tail X: remove one
occurrence of the suffix if present. -/
def stripSuffixOnce (s patt : String) : String :=
  if strEnds s patt then ⟨s.data.take (s.data.length - patt.data.length)⟩ else s

/-- Model of JS s.slice(0, n). -/
def strTake (s : String) (n : Nat) : String := ⟨s.data.take n⟩

/-- Character count of a string (JS .length on the strings evaluated here). -/
def strLen (s : String) : Nat := s.data.length

/-- First piece of a split, with the JS `?? fallback` applied; models
s.split(c)[0] ?? s (the fallback can never fire: a split is nonempty). -/
def headD (l : List String) (fallback : String) : String := l.headD fallback

/-! ## URL Normalizer: share-token shape test (src/lib/reddit.ts, extractShareToken) -/

/-- Path segments as computed by the source: split on a slash, empty
segments discarded (`pathname.split('/').filter(Boolean)`). -/
def splitSegments (pathname : String) : List String :=
  (jsSplit '/' pathname).filter (fun seg => seg != "")

/-- Model of Array.prototype.indexOf: position of the first occurrence,
none standing for -1. -/
def jsIndexOf : List String → String → Option Nat
  | [], _ => none
  | a :: rest, x => if a == x then some 0 else (jsIndexOf rest x).map (· + 1)

/-- Embedding of extractShareToken: requires at least four segments, first
segment "r", and the first occurrence of "s" (Array.prototype.indexOf) at
the second-to-last position; returns the following (last) segment. -/
def extractShareToken (pathname : String) : Option String :=
  let segments := splitSegments pathname
  if segments.length < 4 then none
  else
    match jsIndexOf segments "s" with
    | none => none
    | some sIndex =>
      if segments.get? 0 != some "r" || sIndex != segments.length - 2 then none
      else segments.get? (sIndex + 1)

/-- The normalizer's share-shape predicate: extractShareToken succeeds. -/
def shareShapeNorm (pathname : String) : Bool := (extractShareToken pathname).isSome

/-- Embedding of the inline share-shape test of resolveShareUrlIfNeeded:
the same indexOf-based check but with no minimum-length requirement. -/
def resolveShapeAccepts (pathname : String) : Bool :=
  let segments := splitSegments pathname
  match jsIndexOf segments "s" with
  | none => false
  | some sIndex => segments.get? 0 == some "r" && sIndex == segments.length - 2

/-! ## Base64 decoding (model of Node Buffer.from(_, 'base64')) -/

/-- Value of one base64 alphabet character. -/
def b64Val (c : Char) : Option Nat :=
  if 'A' ≤ c && c ≤ 'Z' then some (c.toNat - 65)
  else if 'a' ≤ c && c ≤ 'z' then some (c.toNat - 97 + 26)
  else if '0' ≤ c && c ≤ '9' then some (c.toNat - 48 + 52)
  else if c == '+' then some 62
  else if c == '/' then some 63
  else none

/-- Decode a stream of 6-bit values into bytes: full groups of four give
three bytes, a leftover of two or three characters gives one or two bytes,
a leftover single character is dropped. -/
def b64Groups : List Nat → List Nat
  | a :: b :: c :: d :: rest =>
    (a * 4 + b / 16) :: ((b % 16) * 16 + c / 4) :: ((c % 4) * 64 + d) :: b64Groups rest
  | [a, b] => [a * 4 + b / 16]
  | [a, b, c] => [a * 4 + b / 16, (b % 16) * 16 + c / 4]
  | _ => []

/-- Model of Node Buffer.from(s, 'base64'): lenient decoding that ignores
characters outside the base64 alphabet and stops at the first '='.
It never throws. -/
def nodeBase64Decode (s : String) : List Nat :=
  b64Groups ((s.data.takeWhile (· != '=')).filterMap b64Val)

/-! ## UTF-8 decoding with replacement (model of buffer.toString('utf-8')) -/

/-- Is the byte a UTF-8 continuation byte. -/
def utf8Cont (b : Nat) : Bool := 0x80 ≤ b && b ≤ 0xBF

/-- WHATWG UTF-8 decode: ill-formed sequences are replaced by U+FFFD
(one replacement per maximal invalid subpart; decoding resumes at the
byte that broke the sequence). Total, like buffer.toString. The fuel
argument (instantiated with the byte count, an upper bound on the number
of decoded characters) only makes the recursion structural. -/
def utf8DecodeAux : Nat → List Nat → List Char
  | 0, _ => []
  | _ + 1, [] => []
  | fuel + 1, b :: rest =>
    if b < 0x80 then Char.ofNat b :: utf8DecodeAux fuel rest
    else if 0xC2 ≤ b && b ≤ 0xDF then
      match rest with
      | [] => ['�']
      | b2 :: rest2 =>
        if utf8Cont b2 then
          Char.ofNat ((b - 0xC0) * 64 + (b2 - 0x80)) :: utf8DecodeAux fuel rest2
        else '�' :: utf8DecodeAux fuel rest
    else if 0xE0 ≤ b && b ≤ 0xEF then
      match rest with
      | [] => ['�']
      | b2 :: rest2 =>
        let lowOk :=
          if b = 0xE0 then 0xA0 ≤ b2 && b2 ≤ 0xBF
          else if b = 0xED then 0x80 ≤ b2 && b2 ≤ 0x9F
          else utf8Cont b2
        if lowOk then
          match rest2 with
          | [] => ['�']
          | b3 :: rest3 =>
            if utf8Cont b3 then
              Char.ofNat ((b - 0xE0) * 4096 + (b2 - 0x80) * 64 + (b3 - 0x80)) ::
                utf8DecodeAux fuel rest3
            else '�' :: utf8DecodeAux fuel rest2
        else '�' :: utf8DecodeAux fuel rest
    else if 0xF0 ≤ b && b ≤ 0xF4 then
      match rest with
      | [] => ['�']
      | b2 :: rest2 =>
        let lowOk :=
          if b = 0xF0 then 0x90 ≤ b2 && b2 ≤ 0xBF
          else if b = 0xF4 then 0x80 ≤ b2 && b2 ≤ 0x8F
          else utf8Cont b2
        if lowOk then
          match rest2 with
          | [] => ['�']
          | b3 :: rest3 =>
            if utf8Cont b3 then
              match rest3 with
              | [] => ['�']
              | b4 :: rest4 =>
                if utf8Cont b4 then
                  Char.ofNat ((b - 0xF0) * 262144 + (b2 - 0x80) * 4096 +
                      (b3 - 0x80) * 64 + (b4 - 0x80)) :: utf8DecodeAux fuel rest4
                else '�' :: utf8DecodeAux fuel rest3
            else '�' :: utf8DecodeAux fuel rest2
        else '�' :: utf8DecodeAux fuel rest
    else '�' :: utf8DecodeAux fuel rest
/-- Model of buffer.toString('utf-8'). -/
def utf8DecodeReplace (l : List Nat) : List Char := utf8DecodeAux l.length l

/-! ## JSON.parse model (flat string-field objects) -/

/-- JSON whitespace. -/
def jsonWs (c : Char) : Bool := c == ' ' || c == '\t' || c == '\n' || c == '\r'

/-- Parse one JSON string literal without escape sequences; escaped or
unterminated strings are outside the modelled domain (none). -/
def parseJsonString : List Char → Option (String × List Char)
  | '"' :: rest =>
    let content := rest.takeWhile (fun c => c != '"' && c != '\\')
    match rest.dropWhile (fun c => c != '"' && c != '\\') with
    | '"' :: rest2 => some (⟨content⟩, rest2)
    | _ => none
  | _ => none

/-- Parse the members of a flat JSON object after the opening brace. -/
def parseJsonMembers : Nat → List Char → Option (List (String × String) × List Char)
  | 0, _ => none
  | fuel + 1, l =>
    match l.dropWhile jsonWs with
    | '\x7d' :: rest => some ([], rest)
    | l₁ =>
      match parseJsonString l₁ with
      | none => none
      | some (key, l₂) =>
        match l₂.dropWhile jsonWs with
        | ':' :: l₃ =>
          match parseJsonString (l₃.dropWhile jsonWs) with
          | none => none
          | some (value, l₄) =>
            match l₄.dropWhile jsonWs with
            | ',' :: l₅ =>
              match parseJsonMembers fuel l₅ with
              | none => none
              | some (fields, l₆) => some ((key, value) :: fields, l₆)
            | '\x7d' :: l₅ => some ([(key, value)], l₅)
            | _ => none
        | _ => none

/-- Model of the source's use of JSON.parse: succeeds exactly on a flat
JSON object whose values are escape-free string literals, yielding its
fields. JSON.parse results that are not objects make the source fall
through to the raw-string handling, exactly as a parse failure does, so
they are modelled as none; nested or escaped objects are outside the
modelled domain. -/
def jsonFlatObject (s : String) : Option (List (String × String)) :=
  match s.data.dropWhile jsonWs with
  | '\x7b' :: rest =>
    match parseJsonMembers (rest.length + 1) rest with
    | none => none
    | some (fields, remainder) =>
      if remainder.dropWhile jsonWs = [] then some fields else none
  | _ => none

/-- The share-token JSON envelope: a string field named path, else one
named url (mirrors the typeof checks in decodeShareToken). -/
def jsonPathOrUrl (s : String) : Option String :=
  match jsonFlatObject s with
  | none => none
  | some fields =>
    match fields.lookup "path" with
    | some p => some p
    | none => fields.lookup "url"

/-! ## decodeShareToken (src/lib/reddit.ts) -/

/-- Replace every occurrence of a character (JS s.replace(/x/g, y) for
one-character patterns). -/
def replaceAllChar (a b : Char) (s : String) : String :=
  ⟨s.data.map (fun c => if c = a then b else c)⟩

/-- Embedding of decodeShareToken: URL-safe base64 ('-' → '+', '_' → '/'),
pad with '=' to a multiple of four, decode leniently, interpret the bytes
as UTF-8 text, then try the JSON envelope, an absolute URL, an absolute
path, or an 'r/' path. Decoding failures yield none. -/
def decodeShareToken (token : String) : Option String :=
  let normalized := replaceAllChar '_' '/' (replaceAllChar '-' '+' token)
  let padding := (4 - normalized.data.length % 4) % 4
  let padded := normalized ++ ⟨List.replicate padding '='⟩
  let decodedString : String := ⟨utf8DecodeReplace (nodeBase64Decode padded)⟩
  match jsonPathOrUrl decodedString with
  | some p => some p
  | none =>
    if strStarts decodedString "http" then some decodedString
    else if strStarts decodedString "/" then some decodedString
    else if strStarts decodedString "r/" then some ("/" ++ decodedString)
    else none

/-! ## URL model (WHATWG URL restricted to already-encoded http(s) URLs)

The platform URL constructor is modelled on the domain this repository
exercises: http or https scheme in lowercase, a nonempty lowercase ASCII
host, an optional explicit decimal port, and path/query/fragment parts
whose characters need no percent-encoding. Inputs outside this domain are
mapped to none (standing for the constructor throwing); universally
quantified theorems below restrict their inputs to the modelled domain. -/

structure URLRec where
  scheme : String
  host : String
  port : String
  pathname : String
  search : String
  hash : String
deriving DecidableEq

/-- The origin property: scheme://host with the explicit port if any. -/
def URLRec.origin (u : URLRec) : String :=
  u.scheme ++ "://" ++ u.host ++ (if u.port == "" then "" else ":" ++ u.port)

/-- The href serialization returned by URL.prototype.toString. -/
def URLRec.serialize (u : URLRec) : String :=
  u.origin ++ u.pathname ++ u.search ++ u.hash

/-- Characters allowed in the modelled hosts. -/
def isHostChar (c : Char) : Bool := c.isLower || c.isDigit || c == '.' || c == '-'

/-- Strip a literal character-list prefix, returning the remainder. -/
def stripPre : List Char → List Char → Option (List Char)
  | [], l => some l
  | _ :: _, [] => none
  | p :: ps, c :: cs => if c = p then stripPre ps cs else none

/-- Scheme recognition for the modelled grammar. -/
def parseScheme (s : String) : Option (String × List Char) :=
  match stripPre "https://".data s.data with
  | some rest => some ("https", rest)
  | none =>
    match stripPre "http://".data s.data with
    | some rest => some ("http", rest)
    | none => none

/-- Digits of a decimal numeral to a number. -/
def digitsToNat (l : List Char) : Nat :=
  l.foldl (fun acc c => acc * 10 + (c.toNat - 48)) 0

/-- Port handling: empty means no port; digits are read numerically, a
value above 65535 is a parse failure, and the scheme's default port
serializes as no port — as the WHATWG parser does. -/
def parsePort (scheme : String) (portDigits : List Char) : Option String :=
  if portDigits = [] then some ""
  else if portDigits.all Char.isDigit then
    let n := digitsToNat portDigits
    if n > 65535 then none
    else if (scheme == "https" && n == 443) || (scheme == "http" && n == 80) then some ""
    else some (Nat.repr n)
  else none

/-- Split the part after the authority into pathname, search and hash;
an empty path serializes as "/" for the special schemes. -/
def splitTail (tail : List Char) : String × String × String :=
  let beforeHash := tail.takeWhile (· != '#')
  let hashPart := tail.dropWhile (· != '#')
  let pathPart := beforeHash.takeWhile (· != '?')
  let searchPart := beforeHash.dropWhile (· != '?')
  (if pathPart = [] then "/" else ⟨pathPart⟩, ⟨searchPart⟩, ⟨hashPart⟩)

/-- Model of new URL(s) on the modelled domain. -/
def parseURL (s : String) : Option URLRec :=
  match parseScheme s with
  | none => none
  | some (scheme, rest) =>
    let auth := rest.takeWhile (fun c => c != '/' && c != '?' && c != '#')
    let tail := rest.dropWhile (fun c => c != '/' && c != '?' && c != '#')
    let hostPart := auth.takeWhile (· != ':')
    let portPart := auth.dropWhile (· != ':')
    if hostPart = [] then none
    else if !hostPart.all isHostChar then none
    else
      let portDigits := match portPart with
        | [] => []
        | _ :: ps => ps
      match parsePort scheme portDigits with
      | none => none
      | some port =>
        let (pathname, search, hash) := splitTail tail
        some ⟨scheme, ⟨hostPart⟩, port, pathname, search, hash⟩

/-- Model of new URL(location, base) for the forms the resolver meets:
an absolute http(s) location, or a path-absolute relative location that
takes scheme, host and port from the base. Other relative forms are
outside the modelled domain. -/
def parseURLWithBase (loc : String) (base : URLRec) : Option URLRec :=
  match parseURL loc with
  | some u => some u
  | none =>
    if strStarts loc "/" && !strStarts loc "//" then
      let (pathname, search, hash) := splitTail loc.data
      some ⟨base.scheme, base.host, base.port, pathname, search, hash⟩
    else none

/-! ## normalizeRedditUrl (src/lib/reddit.ts) -/

/-- The appendJson helper: append ".json" unless already present. -/
def appendJson (baseUrl : String) : String :=
  if strEnds baseUrl ".json" then baseUrl else baseUrl ++ ".json"

/-- Embedding of resolveDecodedSharePath: sanitize the decoded value
(strip fragment, query, one trailing slash, one ".json" suffix), then use
its own origin and path if it is an absolute URL, otherwise resolve it
against the original URL's origin. -/
def resolveDecodedSharePath (originalUrl : URLRec) (decoded : String) : Option String :=
  let s₁ := jsTrim decoded
  let s₂ := headD (jsSplit '#' s₁) s₁
  let s₃ := headD (jsSplit '?' s₂) s₂
  let sanitized := stripSuffixOnce (stripSuffixOnce s₃ "/") ".json"
  match parseURL sanitized with
  | some resolvedUrl => some (resolvedUrl.origin ++ resolvedUrl.pathname)
  | none =>
    if strStarts sanitized "/" then some (originalUrl.origin ++ sanitized)
    else some (originalUrl.origin ++ "/" ++ sanitized)

/-- The try-block body of normalizeRedditUrl once the URL constructor has
succeeded. JS truthiness tests on strings (if (shareToken), if (decoded),
if (resolved), base || origin) are modelled as inequality with the empty
string. -/
def normalizeParsed (parsed : URLRec) : String :=
  let base := stripSuffixOnce (parsed.origin ++ parsed.pathname) "/"
  let fallback := appendJson (if base == "" then parsed.origin else base)
  match extractShareToken parsed.pathname with
  | some shareToken =>
    if shareToken != "" then
      match decodeShareToken shareToken with
      | some decoded =>
        if decoded != "" then
          match resolveDecodedSharePath parsed decoded with
          | some resolved => if resolved != "" then appendJson resolved else fallback
          | none => fallback
        else fallback
      | none => fallback
    else fallback
  | none => fallback

/-- Embedding of normalizeRedditUrl: trim, try the URL constructor, and
either run the try-block body or the catch branch (for inputs the URL
constructor rejects). -/
def normalizeRedditUrl (inputUrl : String) : String :=
  let trimmed := jsTrim inputUrl
  match parseURL trimmed with
  | some parsed => normalizeParsed parsed
  | none =>
    let withoutQuery := headD (jsSplit '?' (headD (jsSplit '#' trimmed) trimmed)) trimmed
    let withoutTrailingSlash := stripSuffixOnce withoutQuery "/"
    appendJson withoutTrailingSlash

/-! ## resolveShareUrlIfNeeded (src/lib/reddit.ts) -/

/-- The share-link probe response the resolver consumes: HTTP status and
the location header (none models a missing header). -/
structure ProbeResponse where
  status : Nat
  location : Option String
deriving DecidableEq

/-- Control-flow predicate: the fetch statement inside
resolveShareUrlIfNeeded is reached (a network request is issued) exactly
when the input parses as a URL and the inline shape test accepts. -/
def resolveProbes (url : String) : Bool :=
  match parseURL url with
  | none => false
  | some parsed => resolveShapeAccepts parsed.pathname

/-- Embedding of resolveShareUrlIfNeeded. The probe argument is the
network outcome: none models a rejected fetch (caught by the try, giving
null), some gives the observed status and location header. -/
def resolveShareUrlIfNeeded (url : String) (probe : Option ProbeResponse) : Option String :=
  match parseURL url with
  | none => none
  | some parsed =>
    if !resolveShapeAccepts parsed.pathname then none
    else
      match probe with
      | none => none
      | some response =>
        if response.status < 300 || response.status ≥ 400 then none
        else
          match response.location with
          | none => none
          | some location =>
            match parseURLWithBase location parsed with
            | none => none
            | some resolved => some resolved.serialize

/-! ## Token Cache (src/app/api/summarize/route.ts, getRedditAccessToken)

The function reads two environment variables, consults a module-level
mutable cache, and may issue one token request. It is embedded with the
environment, the incoming cache state, the current time (Date.now(), in
milliseconds) and the network outcome as explicit arguments; it returns
the call result, the outgoing cache state and the number of network
requests issued. -/

/-- Environment configuration: the two client credential secrets. -/
structure TokenEnv where
  clientId : Option String
  clientSecret : Option String
deriving DecidableEq

/-- The cached credential: token and absolute expiry in milliseconds. -/
structure CachedToken where
  token : String
  expiresAt : Int
deriving DecidableEq

/-- Parsed JSON body of a token response (fields may be absent). -/
structure TokenJson where
  access_token : Option String
  expires_in : Option Int
deriving DecidableEq

/-- A token-endpoint HTTP response: status, text body, and the JSON value
of the body (none models a body that JSON parsing rejects). -/
structure TokenResponse where
  status : Nat
  body : String
  json : Option TokenJson
deriving DecidableEq

/-- The failure modes of getRedditAccessToken, following the spec's
taxonomy: missing configuration; a rejected fetch promise; the
authorization endpoint answering with a non-success status (carrying the
status and the truncated body) or a success body without access_token
(both thrown as errors by the source); a body that is not JSON. -/
inductive TokenError where
  | configError
  | networkError
  | upstreamAuth (status : Nat) (bodySnippet : String)
  | upstreamMissingToken
  | jsonError
deriving DecidableEq

/-- Is the error an UpstreamAuthError in the spec's taxonomy (the
authorization endpoint rejected the request or returned an unusable
success body). -/
def TokenError.isUpstreamAuth : TokenError → Bool
  | .upstreamAuth _ _ => true
  | .upstreamMissingToken => true
  | _ => false

/-- Outcome of one getRedditAccessToken call. -/
structure TokenResult where
  result : Except TokenError String
  cache : Option CachedToken
  networkCalls : Nat

/-- JS falsiness of an environment variable: undefined or empty. -/
def jsFalsy (v : Option String) : Bool :=
  match v with
  | none => true
  | some s => s == ""

/-- The token-request part of getRedditAccessToken (source lines after
the cache check): POST the credentials grant, fail on non-success status
with the status and body.slice(0, 200), fail when access_token is
JS-falsy — the source tests `!tokenJson.access_token`, so an absent AND
an empty-string field both raise the missing-token error — otherwise
cache the token with expiry now + (expires_in − 60 s floored at 0) and
return it (the getD only names the field value known non-absent after
the falsy test). -/
def tokenRefresh (cache : Option CachedToken) (now : Int) :
    Option TokenResponse → TokenResult
  | none => ⟨.error .networkError, cache, 1⟩
  | some tokenResponse =>
    if !(200 ≤ tokenResponse.status && tokenResponse.status < 300) then
      ⟨.error (.upstreamAuth tokenResponse.status (strTake tokenResponse.body 200)), cache, 1⟩
    else
      match tokenResponse.json with
      | none => ⟨.error .jsonError, cache, 1⟩
      | some tokenJson =>
        if jsFalsy tokenJson.access_token then
          ⟨.error .upstreamMissingToken, cache, 1⟩
        else
          let tok := tokenJson.access_token.getD ""
          let expiresInSeconds := max ((tokenJson.expires_in.getD 0) - 60) 0
          ⟨.ok tok, some ⟨tok, now + expiresInSeconds * 1000⟩, 1⟩

/-- Embedding of getRedditAccessToken: fail fast when either credential
is missing (JS falsy), return a cached credential valid for more than
60 s beyond now without any request, otherwise refresh. -/
def getRedditAccessToken (env : TokenEnv) (cache : Option CachedToken) (now : Int)
    (fetchResult : Option TokenResponse) : TokenResult :=
  if jsFalsy env.clientId || jsFalsy env.clientSecret then
    ⟨.error .configError, cache, 0⟩
  else
    match cache with
    | some cached =>
      if cached.expiresAt > now + 60000 then ⟨.ok cached.token, cache, 0⟩
      else tokenRefresh cache now fetchResult
    | none => tokenRefresh cache now fetchResult

/-! ## Authenticated Fetcher (fetchRedditJson) and the route's thread fetch -/

/-- An outgoing HTTP GET request: target URL and ordered headers. -/
structure ThreadRequest where
  url : String
  headers : List (String × String)
deriving DecidableEq

/-- Does the request carry a header of the given name. -/
def hasHeader (req : ThreadRequest) (name : String) : Bool :=
  req.headers.any (fun h => h.1 == name)

/-- Query pairs of a search string, as URLSearchParams reads them. -/
def queryPairs (search : String) : List (String × String) :=
  let qs : String := if strStarts search "?" then ⟨search.data.drop 1⟩ else search
  ((jsSplit '&' qs).filter (fun piece => piece != "")).map (fun piece =>
    (⟨piece.data.takeWhile (· != '=')⟩, ⟨(piece.data.dropWhile (· != '=')).drop 1⟩))

/-- URLSearchParams.set: overwrite the first pair with the key (dropping
any later pairs with it) or append the pair at the end. -/
def setQueryPair : List (String × String) → String → String → List (String × String)
  | [], key, value => [(key, value)]
  | (k, v) :: rest, key, value =>
    if k == key then (k, value) :: rest.filter (fun kv => kv.1 != key)
    else (k, v) :: setQueryPair rest key value

/-- Serialize query pairs back into a search string. -/
def joinPairs (pairs : List (String × String)) : String :=
  String.intercalate "&" (pairs.map (fun kv => kv.1 ++ "=" ++ kv.2))

/-- Model of url.searchParams.set(key, value) on a URL object. -/
def searchParamsSet (u : URLRec) (key value : String) : URLRec :=
  { u with search := "?" ++ joinPairs (setQueryPair (queryPairs u.search) key value) }

/-- Embedding of the request built by fetchRedditJson (at the default
empty RequestInit): parse the endpoint (a throwing constructor models as
none), rewrite the host to oauth.reddit.com, clear the port, force
raw_json=1, and attach the identifying, bearer-authorization and accept
headers; the request method is GET (the fetch default). -/
def fetchRedditJsonRequest (url accessToken userAgent : String) : Option ThreadRequest :=
  match parseURL url with
  | none => none
  | some u =>
    let apiUrl := searchParamsSet { u with host := "oauth.reddit.com", port := "" } "raw_json" "1"
    some ⟨apiUrl.serialize,
      [("User-Agent", userAgent),
       ("Authorization", "Bearer " ++ accessToken),
       ("Accept", "application/json")]⟩

/-- Embedding of the thread-data request the POST route handler actually
issues (route.ts lines 25–29): a plain fetch of the normalized URL with
only a User-Agent header — no token, no host rewrite, no raw_json
parameter, no authorization header. -/
def postThreadRequest (jsonUrl : String) : ThreadRequest :=
  ⟨jsonUrl, [("User-Agent", "RedditSummarizer/1.0")]⟩

/-- A path whose nonempty segments are exactly r, s, token — accepted by
the resolver's inline shape test but rejected by extractShareToken's
minimum-length requirement. -/
def isShortShareShape (pathname : String) : Bool :=
  match splitSegments pathname with
  | ["r", "s", _] => true
  | _ => false

/-- Did a getRedditAccessToken call fail with an UpstreamAuthError. -/
def isUpstreamAuthResult : Except TokenError String → Bool
  | .error e => e.isUpstreamAuth
  | .ok _ => false

/-! ## Supporting lemmas -/

theorem jsIndexOf_eq_some {l : List String} {x : String} {i : Nat} :
    jsIndexOf l x = some i ↔
      l.get? i = some x ∧ ∀ j, j < i → l.get? j ≠ some x := by
  induction l generalizing i with
  | nil => simp [jsIndexOf]
  | cons a rest ih =>
    simp only [jsIndexOf]
    by_cases ha : a = x
    · subst ha
      simp only [beq_self_eq_true, if_pos]
      constructor
      · intro h
        obtain rfl : i = 0 := by simpa using h.symm
        simp
      · rintro ⟨h1, h2⟩
        cases i with
        | zero => rfl
        | succ n => exact absurd (by simp) (h2 0 (Nat.succ_pos n))
    · have ha' : (a == x) = false := beq_false_of_ne ha
      simp only [ha', if_neg, Bool.false_eq_true, not_false_iff]
      cases i with
      | zero =>
        simp only [Option.map_eq_some', List.get?_cons_zero]
        constructor
        · rintro ⟨k, _, hk⟩; omega
        · rintro ⟨h1, _⟩; exact absurd (by simpa using h1) ha
      | succ n =>
        simp only [Option.map_eq_some', List.get?_cons_succ]
        constructor
        · rintro ⟨k, hk, hkn⟩
          obtain rfl : k = n := by omega
          obtain ⟨h1, h2⟩ := ih.mp hk
          refine ⟨h1, ?_⟩
          intro j hj
          cases j with
          | zero => simp only [List.get?_cons_zero]; intro hc
                    exact ha (by simpa using hc)
          | succ m => exact h2 m (by omega)
        · rintro ⟨h1, h2⟩
          refine ⟨n, ih.mpr ⟨h1, ?_⟩, rfl⟩
          intro j hj
          exact h2 (j + 1) (by omega)

theorem jsIndexOf_eq_none {l : List String} {x : String} :
    jsIndexOf l x = none ↔ x ∉ l := by
  induction l with
  | nil => simp [jsIndexOf]
  | cons a rest ih =>
    simp only [jsIndexOf, List.mem_cons]
    by_cases ha : a = x
    · subst ha; simp
    · have ha' : (a == x) = false := beq_false_of_ne ha
      simp [ha', ih, Ne.symm ha]


theorem resolveShape_true_iff (p : String) :
    resolveShapeAccepts p = true ↔
      ∃ i, jsIndexOf (splitSegments p) "s" = some i ∧
        (splitSegments p).get? 0 = some "r" ∧ i = (splitSegments p).length - 2 := by
  simp only [resolveShapeAccepts]
  split
  · rename_i hidx
    constructor
    · intro h; cases h
    · rintro ⟨i, hi, -, -⟩; rw [hidx] at hi; cases hi
  · rename_i i hidx
    rw [Bool.and_eq_true, beq_iff_eq, beq_iff_eq]
    constructor
    · rintro ⟨h1, h2⟩; exact ⟨i, hidx, h1, h2⟩
    · rintro ⟨i2, hi2, h1, h2⟩
      rw [hidx] at hi2
      injection hi2 with h
      subst h
      exact ⟨h1, h2⟩

theorem get?_lt_length {l : List String} {n : Nat} {a : String}
    (h : l.get? n = some a) : n < l.length := by
  by_contra hle
  rw [List.get?_eq_none.mpr (by omega)] at h
  cases h

theorem shareShapeNorm_true_iff (p : String) :
    shareShapeNorm p = true ↔
      resolveShapeAccepts p = true ∧ 4 ≤ (splitSegments p).length := by
  rw [resolveShape_true_iff]
  unfold shareShapeNorm extractShareToken
  by_cases hlen : (splitSegments p).length < 4
  · rw [if_pos hlen]
    constructor
    · intro h; cases h
    · rintro ⟨-, h4⟩; omega
  · rw [if_neg hlen]
    split
    · rename_i hidx
      constructor
      · intro h; cases h
      · rintro ⟨⟨i, hi, -, -⟩, -⟩; rw [hidx] at hi; cases hi
    · rename_i i hidx
      by_cases hok : (splitSegments p).get? 0 = some "r" ∧ i = (splitSegments p).length - 2
      · have hcond : ((splitSegments p).get? 0 != some "r" ||
            i != (splitSegments p).length - 2) = false := by
          rw [hok.1, hok.2]; simp
        rw [if_neg (by rw [hcond]; exact Bool.false_ne_true)]
        constructor
        · intro _; exact ⟨⟨i, hidx, hok.1, hok.2⟩, by omega⟩
        · intro _
          have hi1 : i + 1 = (splitSegments p).length - 1 := by
            rw [hok.2]; omega
          have hlt : i + 1 < (splitSegments p).length := by omega
          cases hg : (splitSegments p).get? (i + 1) with
          | none => exact absurd (List.get?_eq_none.mp hg) (by omega)
          | some tok => rfl
      · have hcond : ((splitSegments p).get? 0 != some "r" ||
            i != (splitSegments p).length - 2) = true := by
          rcases not_and_or.mp hok with h | h
          · rw [bne_iff_ne.mpr h, Bool.true_or]
          · rw [bne_iff_ne.mpr h, Bool.or_true]
        rw [if_pos hcond]
        constructor
        · intro h; cases h
        · rintro ⟨⟨i2, hi2, h1, h2⟩, -⟩
          rw [hidx] at hi2
          injection hi2 with h3
          exact absurd ⟨h1, by rw [h3]; exact h2⟩ hok

theorem shape_relation (p : String) :
    resolveShapeAccepts p = (shareShapeNorm p || isShortShareShape p) := by
  rw [Bool.eq_iff_iff, Bool.or_eq_true, shareShapeNorm_true_iff]
  constructor
  · intro h
    by_cases hlen : 4 ≤ (splitSegments p).length
    · exact Or.inl ⟨h, hlen⟩
    · right
      obtain ⟨i, hidx, hr, hi⟩ := (resolveShape_true_iff p).mp h
      obtain ⟨hgi, hmin⟩ := jsIndexOf_eq_some.mp hidx
      have hne : i ≠ 0 := by
        intro h0
        subst h0
        rw [hr] at hgi
        simp at hgi
      have hlt : i < (splitSegments p).length := get?_lt_length hgi
      have hlen3 : (splitSegments p).length = 3 := by omega
      obtain ⟨a, b, c, habc⟩ := List.length_eq_three.mp hlen3
      rw [habc] at hr hgi hi
      have hi1 : i = 1 := by rw [hi]; rfl
      subst hi1
      have ha : a = "r" := by simpa using hr
      have hb : b = "s" := by simpa using hgi
      subst ha; subst hb
      unfold isShortShareShape
      rw [habc]
      rfl
  · rintro (⟨h, -⟩ | h)
    · exact h
    · unfold isShortShareShape at h
      split at h
      · rename_i x hseg
        rw [resolveShape_true_iff]
        refine ⟨1, ?_, ?_, ?_⟩
        · rw [hseg]; simp [jsIndexOf]
        · rw [hseg]; rfl
        · rw [hseg]; rfl
      · cases h

theorem resolve_none_of_no_probe (url : String) (probe : Option ProbeResponse)
    (h : resolveProbes url = false) : resolveShareUrlIfNeeded url probe = none := by
  unfold resolveProbes at h
  unfold resolveShareUrlIfNeeded
  split
  · rfl
  · rename_i parsed hp
    rw [hp] at h
    have h2 : resolveShapeAccepts parsed.pathname = false := h
    simp [h2]



theorem extractShareToken_spec (pathname token : String) :
    extractShareToken pathname = some token ↔
      (4 ≤ (splitSegments pathname).length ∧
       (splitSegments pathname).get? 0 = some "r" ∧
       (splitSegments pathname).get? ((splitSegments pathname).length - 2) = some "s" ∧
       (∀ j, j < (splitSegments pathname).length - 2 →
         (splitSegments pathname).get? j ≠ some "s") ∧
       (splitSegments pathname).get? ((splitSegments pathname).length - 1) = some token) := by
  unfold extractShareToken
  generalize hsegs : splitSegments pathname = segs
  by_cases hlen : segs.length < 4
  · rw [if_pos hlen]
    constructor
    · intro h; cases h
    · rintro ⟨h4, -⟩; omega
  · rw [if_neg hlen]
    split
    · rename_i hidx
      constructor
      · intro h; cases h
      · rintro ⟨-, -, hs, -, -⟩
        exact absurd (List.get?_mem hs) (jsIndexOf_eq_none.mp hidx)
    · rename_i i hidx
      obtain ⟨hgi, hmin⟩ := jsIndexOf_eq_some.mp hidx
      by_cases hr : segs.get? 0 = some "r"
      · by_cases hi : i = segs.length - 2
        · have hcond : (segs.get? 0 != some "r" || i != segs.length - 2) = false := by
            rw [hr, hi]; simp
          rw [if_neg (by rw [hcond]; exact Bool.false_ne_true)]
          subst hi
          have hlast : segs.length - 2 + 1 = segs.length - 1 := by omega
          rw [hlast]
          constructor
          · intro h
            exact ⟨by omega, hr, hgi, fun j hj => hmin j hj, h⟩
          · rintro ⟨-, -, -, -, h⟩; exact h
        · have h2 : (i != segs.length - 2) = true := bne_iff_ne.mpr hi
          rw [if_pos (by rw [h2, Bool.or_true])]
          constructor
          · intro h; cases h
          · rintro ⟨-, -, hs, hmin2, -⟩
            rcases Nat.lt_trichotomy i (segs.length - 2) with hlt | heq | hgt
            · exact absurd hgi (hmin2 i hlt)
            · exact absurd heq hi
            · exact absurd hs (hmin _ hgt)
      · have h1 : (segs.get? 0 != some "r") = true := bne_iff_ne.mpr hr
        rw [if_pos (by rw [h1, Bool.true_or])]
        constructor
        · intro h; cases h
        · rintro ⟨-, hr2, -, -, -⟩; exact absurd hr2 hr

theorem strEnds_append_self (s t : String) : strEnds (s ++ t) t = true := by
  unfold strEnds
  rw [String.data_append, List.isSuffixOf_iff_suffix]
  exact List.suffix_append _ _

theorem appendJson_ends (b : String) : strEnds (appendJson b) ".json" = true := by
  unfold appendJson
  split
  · assumption
  · exact strEnds_append_self b ".json"

theorem normalizeParsed_ends (u : URLRec) :
    strEnds (normalizeParsed u) ".json" = true := by
  simp only [normalizeParsed]
  repeat' split
  all_goals exact appendJson_ends _

theorem normalize_ends (inputUrl : String) :
    strEnds (normalizeRedditUrl inputUrl) ".json" = true := by
  simp only [normalizeRedditUrl]
  split
  · exact normalizeParsed_ends _
  · exact appendJson_ends _

/-- C2 (corrected): for every pathname, extractShareToken yields a token
exactly when the segments number at least four, the first is r, the FIRST
occurrence of s sits exactly at the second-to-last position, and the
token is the last segment. (The claim's mere existence of an s segment at
the second-to-last position does not suffice: an earlier s makes
Array.prototype.indexOf return its position instead.) -/
theorem claim_C2_share_token_shape (pathname token : String) :
    extractShareToken pathname = some token ↔
      (4 ≤ (splitSegments pathname).length ∧
       (splitSegments pathname).get? 0 = some "r" ∧
       (splitSegments pathname).get? ((splitSegments pathname).length - 2) = some "s" ∧
       (∀ j, j < (splitSegments pathname).length - 2 →
         (splitSegments pathname).get? j ≠ some "s") ∧
       (splitSegments pathname).get? ((splitSegments pathname).length - 1) = some token) :=
  extractShareToken_spec pathname token

/-- C2 counterexample: /r/s/a/s/tok has five nonempty segments, first r,
a segment equal to s at the second-to-last position (index 3) and last
segment tok, so the claim as stated demands the token tok — yet
extractShareToken rejects it, because the first occurrence of s is at
index 1. -/
theorem claim_C2_counterexample :
    splitSegments "/r/s/a/s/tok" = ["r", "s", "a", "s", "tok"] ∧
    4 ≤ (splitSegments "/r/s/a/s/tok").length ∧
    (splitSegments "/r/s/a/s/tok").get? 0 = some "r" ∧
    (splitSegments "/r/s/a/s/tok").get? ((splitSegments "/r/s/a/s/tok").length - 2) = some "s" ∧
    (splitSegments "/r/s/a/s/tok").get? ((splitSegments "/r/s/a/s/tok").length - 1) = some "tok" ∧
    extractShareToken "/r/s/a/s/tok" = none := by decide

/-- C3 (corrected): the resolver's inline shape test equals the
normalizer's share-shape test extended by the three-segment paths
r/s/token (the inline test re-derives the indexOf check but omits the
minimum-length requirement); and whenever the probe condition fails the
resolver returns null without any network request. -/
theorem claim_C3_shape_refinement :
    (∀ pathname, resolveShapeAccepts pathname =
      (shareShapeNorm pathname || isShortShareShape pathname)) ∧
    (∀ url probe, resolveProbes url = false →
      resolveShareUrlIfNeeded url probe = none) :=
  ⟨shape_relation, resolve_none_of_no_probe⟩

theorem claim_C3_witness :
    resolveShareUrlIfNeeded "https://www.reddit.com/r/test/comments/abc123" none = none :=
  claim_C3_shape_refinement.2 "https://www.reddit.com/r/test/comments/abc123" none (by decide)

/-- C3 counterexample: on the path /r/s/x the two shape predicates
differ — the normalizer's test rejects (three segments) while the
resolver's test accepts, so the resolver issues a probe and can return a
resolved URL for an input the normalizer does not consider a share
link. -/
theorem claim_C3_counterexample :
    shareShapeNorm "/r/s/x" = false ∧
    resolveShapeAccepts "/r/s/x" = true ∧
    resolveProbes "https://www.reddit.com/r/s/x" = true ∧
    resolveShareUrlIfNeeded "https://www.reddit.com/r/s/x" (some ⟨301, some "/y"⟩) =
      some "https://www.reddit.com/y" := by decide

/-- C8 (confirmed): normalizeRedditUrl is a total function — for every
input string, including empty and unparseable ones, it returns a string
(every throwing operation of the source sits inside a catch that the
embedding reflects), and that string always carries the .json suffix. -/
theorem claim_C8_normalize_total (inputUrl : String) :
    ∃ result, normalizeRedditUrl inputUrl = result ∧ strEnds result ".json" = true :=
  ⟨normalizeRedditUrl inputUrl, rfl, normalize_ends inputUrl⟩

/-- C6 (confirmed, under the spec §4.3 precondition that both client
credentials are configured): when a cached credential exists whose expiry
lies more than 60 seconds past now, getRedditAccessToken returns that
token, issues no network request, and leaves the cache unchanged. -/
theorem claim_C6_hot_path (env : TokenEnv) (cache : Option CachedToken) (c : CachedToken)
    (now : Int) (fetchResult : Option TokenResponse)
    (hid : jsFalsy env.clientId = false) (hsec : jsFalsy env.clientSecret = false)
    (hc : cache = some c) (hexp : c.expiresAt > now + 60000) :
    (getRedditAccessToken env cache now fetchResult).result = .ok c.token ∧
    (getRedditAccessToken env cache now fetchResult).cache = cache ∧
    (getRedditAccessToken env cache now fetchResult).networkCalls = 0 := by
  subst hc
  unfold getRedditAccessToken
  rw [hid, hsec]
  simp only [Bool.or_self, Bool.false_eq_true, if_false]
  rw [if_pos hexp]
  exact ⟨rfl, rfl, rfl⟩

theorem claim_C6_witness :
    (getRedditAccessToken ⟨some "id", some "secret"⟩ (some ⟨"tok", 100000⟩) 0 none).result =
      .ok "tok" ∧
    (getRedditAccessToken ⟨some "id", some "secret"⟩ (some ⟨"tok", 100000⟩) 0 none).cache =
      some ⟨"tok", 100000⟩ ∧
    (getRedditAccessToken ⟨some "id", some "secret"⟩ (some ⟨"tok", 100000⟩) 0 none).networkCalls = 0 :=
  claim_C6_hot_path ⟨some "id", some "secret"⟩ (some ⟨"tok", 100000⟩) ⟨"tok", 100000⟩ 0 none
    rfl rfl rfl (by decide)

/-- C10 (confirmed): getRedditAccessToken checks the two credentials
before consulting the cache, so with either secret unset it fails with
the configuration error, issues no network request, and leaves the cache
unchanged — even when a currently valid cached credential exists. -/
theorem claim_C10_config_first (env : TokenEnv) (cache : Option CachedToken) (now : Int)
    (fetchResult : Option TokenResponse)
    (h : env.clientId = none ∨ env.clientSecret = none) :
    (getRedditAccessToken env cache now fetchResult).result = .error .configError ∧
    (getRedditAccessToken env cache now fetchResult).cache = cache ∧
    (getRedditAccessToken env cache now fetchResult).networkCalls = 0 := by
  have hf : (jsFalsy env.clientId || jsFalsy env.clientSecret) = true := by
    rcases h with h | h <;> rw [h] <;> simp [jsFalsy]
  unfold getRedditAccessToken
  rw [if_pos hf]
  exact ⟨rfl, rfl, rfl⟩

theorem claim_C10_witness :
    (getRedditAccessToken ⟨none, some "secret"⟩ (some ⟨"tok", 100000⟩) 0 none).result =
      .error .configError ∧
    (getRedditAccessToken ⟨none, some "secret"⟩ (some ⟨"tok", 100000⟩) 0 none).cache =
      some ⟨"tok", 100000⟩ ∧
    (getRedditAccessToken ⟨none, some "secret"⟩ (some ⟨"tok", 100000⟩) 0 none).networkCalls = 0 :=
  claim_C10_config_first ⟨none, some "secret"⟩ (some ⟨"tok", 100000⟩) 0 none (Or.inl rfl)

/-- C1 (code bug, evaluated at the failing input): on the summarize route
the thread-data request is NOT issued through fetchRedditJson — the
handler fetches the normalized URL directly with only a User-Agent
header, while fetchRedditJson would have produced the authenticated
request with the oauth.reddit.com host, cleared port, raw_json=1
parameter and bearer authorization. -/
theorem claim_C1_route_bypasses_fetcher :
    normalizeRedditUrl "https://reddit.com/r/test/comments/abc123" =
      "https://reddit.com/r/test/comments/abc123.json" ∧
    postThreadRequest "https://reddit.com/r/test/comments/abc123.json" =
      ⟨"https://reddit.com/r/test/comments/abc123.json",
       [("User-Agent", "RedditSummarizer/1.0")]⟩ ∧
    hasHeader (postThreadRequest "https://reddit.com/r/test/comments/abc123.json")
      "Authorization" = false ∧
    fetchRedditJsonRequest "https://reddit.com/r/test/comments/abc123.json" "token123"
      "RedditSummarizer/1.0" =
      some ⟨"https://oauth.reddit.com/r/test/comments/abc123.json?raw_json=1",
        [("User-Agent", "RedditSummarizer/1.0"),
         ("Authorization", "Bearer token123"),
         ("Accept", "application/json")]⟩ ∧
    some (postThreadRequest "https://reddit.com/r/test/comments/abc123.json") ≠
      fetchRedditJsonRequest "https://reddit.com/r/test/comments/abc123.json" "token123"
        "RedditSummarizer/1.0" := by decide


theorem strLen_strTake (s : String) (n : Nat) : strLen (strTake s n) ≤ n := by
  simp only [strLen, strTake]
  exact List.length_take_le n s.data

theorem tokenRefresh_spec (cache : Option CachedToken) (now : Int)
    (fetchResult : Option TokenResponse) :
    (isUpstreamAuthResult (tokenRefresh cache now fetchResult).result = true ↔
      ((tokenRefresh cache now fetchResult).networkCalls = 1 ∧
       ∃ resp, fetchResult = some resp ∧
         (¬(200 ≤ resp.status ∧ resp.status < 300) ∨
          ∃ j, resp.json = some j ∧ jsFalsy j.access_token = true))) ∧
    (isUpstreamAuthResult (tokenRefresh cache now fetchResult).result = true →
      (tokenRefresh cache now fetchResult).cache = cache) ∧
    (∀ st b, (tokenRefresh cache now fetchResult).result = .error (.upstreamAuth st b) →
      ∃ resp, fetchResult = some resp ∧ st = resp.status ∧
        b = strTake resp.body 200 ∧ strLen b ≤ 200) := by
  cases fetchResult with
  | none =>
    refine ⟨?_, ?_, ?_⟩
    · constructor
      · intro h; simp [tokenRefresh, isUpstreamAuthResult, TokenError.isUpstreamAuth] at h
      · rintro ⟨-, resp, heq, -⟩; cases heq
    · intro h; simp [tokenRefresh, isUpstreamAuthResult, TokenError.isUpstreamAuth] at h
    · intro st b h; simp [tokenRefresh] at h
  | some resp =>
    obtain ⟨st0, body0, json0⟩ := resp
    simp only [tokenRefresh]
    by_cases hok : 200 ≤ st0 ∧ st0 < 300
    · rw [if_neg (by simp [hok.1, hok.2])]
      cases json0 with
      | none =>
        refine ⟨?_, ?_, ?_⟩
        · constructor
          · intro h; simp [isUpstreamAuthResult, TokenError.isUpstreamAuth] at h
          · rintro ⟨-, resp2, heq, hbad⟩
            injection heq with heq2
            subst heq2
            rcases hbad with h | ⟨j, hj, -⟩
            · exact absurd hok h
            · cases hj
        · intro h; simp [isUpstreamAuthResult, TokenError.isUpstreamAuth] at h
        · intro st b h; simp at h
      | some tj =>
        obtain ⟨at0, ei0⟩ := tj
        dsimp only
        by_cases hfa : jsFalsy at0 = true
        · rw [if_pos hfa]
          refine ⟨?_, ?_, ?_⟩
          · constructor
            · intro _
              exact ⟨rfl, ⟨st0, body0, some ⟨at0, ei0⟩⟩, rfl, Or.inr ⟨⟨at0, ei0⟩, rfl, hfa⟩⟩
            · intro _; rfl
          · intro _; rfl
          · intro st b h; simp at h
        · rw [if_neg hfa]
          refine ⟨?_, ?_, ?_⟩
          · constructor
            · intro h; simp [isUpstreamAuthResult] at h
            · rintro ⟨-, resp2, heq, hbad⟩
              injection heq with heq2
              subst heq2
              rcases hbad with h | ⟨j, hj, hat⟩
              · exact absurd hok h
              · injection hj with hj2
                subst hj2
                exact absurd hat hfa
          · intro h; simp [isUpstreamAuthResult] at h
          · intro st b h; simp at h
    · have hcond : (!(decide (200 ≤ st0) && decide (st0 < 300))) = true := by
        rcases not_and_or.mp hok with h | h <;> simp [h]
      rw [if_pos hcond]
      refine ⟨?_, ?_, ?_⟩
      · constructor
        · intro _; exact ⟨rfl, ⟨st0, body0, json0⟩, rfl, Or.inl hok⟩
        · intro _; rfl
      · intro _; rfl
      · intro st b h
        injection h with h2
        injection h2 with h3 h4
        refine ⟨⟨st0, body0, json0⟩, rfl, h3.symm, h4.symm, ?_⟩
        rw [← h4]
        exact strLen_strTake body0 200

/-- C7 (corrected): a getRedditAccessToken call fails with an
UpstreamAuthError exactly when a token request was issued and the
response either has a non-success status or is a success whose JSON body
carries a JS-falsy access_token — the field absent OR present but equal
to the empty string, since the source tests `!tokenJson.access_token`
(the claim's "lacks the field" misses the empty-string case, see the
counterexample); an UpstreamAuthError leaves the cached credential
unchanged, and the status-error variant carries the response status and
the body truncated to at most 200 characters. -/
theorem claim_C7_upstream_auth (env : TokenEnv) (cache : Option CachedToken) (now : Int)
    (fetchResult : Option TokenResponse) :
    (isUpstreamAuthResult (getRedditAccessToken env cache now fetchResult).result = true ↔
      ((getRedditAccessToken env cache now fetchResult).networkCalls = 1 ∧
       ∃ resp, fetchResult = some resp ∧
         (¬(200 ≤ resp.status ∧ resp.status < 300) ∨
          ∃ j, resp.json = some j ∧ jsFalsy j.access_token = true))) ∧
    (isUpstreamAuthResult (getRedditAccessToken env cache now fetchResult).result = true →
      (getRedditAccessToken env cache now fetchResult).cache = cache) ∧
    (∀ st b, (getRedditAccessToken env cache now fetchResult).result =
        .error (.upstreamAuth st b) →
      ∃ resp, fetchResult = some resp ∧ st = resp.status ∧
        b = strTake resp.body 200 ∧ strLen b ≤ 200) := by
  unfold getRedditAccessToken
  split
  · refine ⟨?_, ?_, ?_⟩
    · constructor
      · intro h; simp [isUpstreamAuthResult, TokenError.isUpstreamAuth] at h
      · rintro ⟨h0, -⟩; simp at h0
    · intro h; simp [isUpstreamAuthResult, TokenError.isUpstreamAuth] at h
    · intro st b h; simp at h
  · split
    · split
      · refine ⟨?_, ?_, ?_⟩
        · constructor
          · intro h; simp [isUpstreamAuthResult] at h
          · rintro ⟨h0, -⟩; simp at h0
        · intro h; simp [isUpstreamAuthResult] at h
        · intro st b h; simp at h
      · exact tokenRefresh_spec _ now fetchResult
    · exact tokenRefresh_spec _ now fetchResult

theorem claim_C7_witness :
    (getRedditAccessToken ⟨some "id", some "sec"⟩ none 0 (some ⟨401, "denied", none⟩)).cache =
      none :=
  (claim_C7_upstream_auth ⟨some "id", some "sec"⟩ none 0 (some ⟨401, "denied", none⟩)).2.1
    (by rfl)

/-- C7 counterexample: a success (200) token response whose JSON body
carries the access_token field with the empty string. The body does not
lack the field and the status is a success, yet the call fails with the
missing-token UpstreamAuthError, because the source's check is the JS
falsy test `!tokenJson.access_token` — refuting the claim's "exactly
when the status is non-success or the body lacks the field". The cache
is still left unchanged. -/
theorem claim_C7_counterexample :
    isUpstreamAuthResult
        (getRedditAccessToken ⟨some "id", some "sec"⟩ none 0
          (some ⟨200, "body", some ⟨some "", some 3600⟩⟩)).result = true ∧
    (getRedditAccessToken ⟨some "id", some "sec"⟩ none 0
        (some ⟨200, "body", some ⟨some "", some 3600⟩⟩)).result =
      .error .upstreamMissingToken ∧
    (200 ≤ (200 : Nat) ∧ (200 : Nat) < 300) ∧
    TokenJson.access_token ⟨some "", some 3600⟩ = some "" ∧
    (getRedditAccessToken ⟨some "id", some "sec"⟩ none 0
        (some ⟨200, "body", some ⟨some "", some 3600⟩⟩)).cache = none :=
  ⟨rfl, rfl, by decide, rfl, rfl⟩

theorem resolve_reduce {url : String} {parsed : URLRec} (probe : Option ProbeResponse)
    (hp : parseURL url = some parsed) (hs : resolveShapeAccepts parsed.pathname = true) :
    resolveShareUrlIfNeeded url probe =
      (match probe with
       | none => none
       | some response =>
         if response.status < 300 || response.status ≥ 400 then none
         else
           match response.location with
           | none => none
           | some location =>
             match parseURLWithBase location parsed with
             | none => none
             | some resolved => some resolved.serialize) := by
  unfold resolveShareUrlIfNeeded
  rw [hp]
  simp [hs]

theorem resolve_reduce_some {url : String} {parsed : URLRec} (resp : ProbeResponse)
    (hp : parseURL url = some parsed) (hs : resolveShapeAccepts parsed.pathname = true) :
    resolveShareUrlIfNeeded url (some resp) =
      (if resp.status < 300 || resp.status ≥ 400 then none
       else
         match resp.location with
         | none => none
         | some location =>
           match parseURLWithBase location parsed with
           | none => none
           | some resolved => some resolved.serialize) := by
  rw [resolve_reduce (some resp) hp hs]

/-- C9 (confirmed): resolveShareUrlIfNeeded absorbs every failure —
URL-parse failure of the input, a rejected fetch, a status outside the
3xx range, a missing location header, and a location the URL constructor
rejects all yield null rather than an error (the embedding is a total
function mirroring the try/catch of the source). -/
theorem claim_C9_resolver_absorbs_failures (url : String) (probe : Option ProbeResponse) :
    (parseURL url = none → resolveShareUrlIfNeeded url probe = none) ∧
    (probe = none → resolveShareUrlIfNeeded url probe = none) ∧
    (∀ resp, probe = some resp → resp.status < 300 ∨ 400 ≤ resp.status →
      resolveShareUrlIfNeeded url probe = none) ∧
    (∀ resp, probe = some resp → resp.location = none →
      resolveShareUrlIfNeeded url probe = none) ∧
    (∀ parsed resp loc, parseURL url = some parsed → probe = some resp →
      resp.location = some loc → parseURLWithBase loc parsed = none →
      resolveShareUrlIfNeeded url probe = none) := by
  cases hp : parseURL url with
  | none =>
    have hnone : resolveShareUrlIfNeeded url probe = none := by
      unfold resolveShareUrlIfNeeded
      rw [hp]
    exact ⟨fun _ => hnone, fun _ => hnone, fun _ _ _ => hnone, fun _ _ _ => hnone,
      fun _ _ _ _ _ _ _ => hnone⟩
  | some parsed =>
    by_cases hs : resolveShapeAccepts parsed.pathname = true
    · refine ⟨?_, ?_, ?_, ?_, ?_⟩
      · intro h; exact Option.noConfusion h
      · rintro rfl; rw [resolve_reduce none hp hs]
      · rintro resp rfl hst
        have hcond : (decide (resp.status < 300) || decide (resp.status ≥ 400)) = true := by
          rw [Bool.or_eq_true, decide_eq_true_eq, decide_eq_true_eq]
          exact hst
        rw [resolve_reduce_some resp hp hs, hcond, if_pos rfl]
      · rintro resp rfl hloc
        rw [resolve_reduce_some resp hp hs]
        split
        · rfl
        · simp [hloc]
      · rintro parsed2 resp loc hp2 rfl hloc hbase
        injection hp2 with hpe
        subst hpe
        rw [resolve_reduce_some resp hp hs]
        split
        · rfl
        · simp [hloc, hbase]
    · have hs2 : resolveShapeAccepts parsed.pathname = false := by
        cases h2 : resolveShapeAccepts parsed.pathname
        · rfl
        · exact absurd h2 hs
      have hnone : resolveShareUrlIfNeeded url probe = none := by
        unfold resolveShareUrlIfNeeded
        rw [hp]
        simp [hs2]
      exact ⟨fun _ => hnone, fun _ => hnone, fun _ _ _ => hnone, fun _ _ _ => hnone,
        fun _ _ _ _ _ _ _ => hnone⟩

theorem claim_C9_witness :
    resolveShareUrlIfNeeded "not a url" none = none ∧
    resolveShareUrlIfNeeded "https://www.reddit.com/r/a/s/t" none = none ∧
    resolveShareUrlIfNeeded "https://www.reddit.com/r/a/s/t" (some ⟨404, some "/y"⟩) = none ∧
    resolveShareUrlIfNeeded "https://www.reddit.com/r/a/s/t" (some ⟨301, none⟩) = none ∧
    resolveShareUrlIfNeeded "https://www.reddit.com/r/a/s/t" (some ⟨301, some "::"⟩) = none :=
  ⟨(claim_C9_resolver_absorbs_failures "not a url" none).1 (by decide),
   (claim_C9_resolver_absorbs_failures "https://www.reddit.com/r/a/s/t" none).2.1 rfl,
   (claim_C9_resolver_absorbs_failures "https://www.reddit.com/r/a/s/t"
     (some ⟨404, some "/y"⟩)).2.2.1 ⟨404, some "/y"⟩ rfl (by decide),
   (claim_C9_resolver_absorbs_failures "https://www.reddit.com/r/a/s/t"
     (some ⟨301, none⟩)).2.2.2.1 ⟨301, none⟩ rfl rfl,
   (claim_C9_resolver_absorbs_failures "https://www.reddit.com/r/a/s/t"
     (some ⟨301, some "::"⟩)).2.2.2.2 ⟨"https", "www.reddit.com", "", "/r/a/s/t", "", ""⟩
     ⟨301, some "::"⟩ "::" (by decide) rfl rfl (by decide)⟩


theorem stripPre_append (p r : List Char) : stripPre p (p ++ r) = some r := by
  induction p with
  | nil => rfl
  | cons c cs ih => simp [stripPre, ih]

theorem takeWhile_append_of {p : Char → Bool} {l₁ l₂ : List Char}
    (h1 : ∀ c ∈ l₁, p c = true) (h2 : ∀ c, l₂.head? = some c → p c = false) :
    (l₁ ++ l₂).takeWhile p = l₁ := by
  induction l₁ with
  | nil =>
    cases l₂ with
    | nil => rfl
    | cons c cs => simp [List.takeWhile_cons, h2 c rfl]
  | cons c cs ih =>
    simp only [List.cons_append, List.takeWhile_cons, h1 c (by simp), if_true]
    rw [ih (fun d hd => h1 d (by simp [hd]))]

theorem dropWhile_append_of {p : Char → Bool} {l₁ l₂ : List Char}
    (h1 : ∀ c ∈ l₁, p c = true) (h2 : ∀ c, l₂.head? = some c → p c = false) :
    (l₁ ++ l₂).dropWhile p = l₂ := by
  induction l₁ with
  | nil =>
    cases l₂ with
    | nil => rfl
    | cons c cs => simp [List.dropWhile_cons, h2 c rfl]
  | cons c cs ih =>
    simp only [List.cons_append, List.dropWhile_cons, h1 c (by simp), if_true]
    exact ih (fun d hd => h1 d (by simp [hd]))

theorem parseScheme_append (sch : String) (hsch : sch = "https" ∨ sch = "http")
    (rest : String) :
    parseScheme (sch ++ "://" ++ rest) = some (sch, rest.data) := by
  rcases hsch with h | h <;> subst h
  · have hd : ("https" ++ "://" ++ rest).data = "https://".data ++ rest.data := by
      rw [String.append_assoc]
      rfl
    unfold parseScheme
    rw [hd, stripPre_append]
  · have hd : ("http" ++ "://" ++ rest).data = "http://".data ++ rest.data := by
      rw [String.append_assoc]
      rfl
    have hfail : stripPre "https://".data ("http" ++ "://" ++ rest).data = none := by
      rw [hd]
      show stripPre ('h' :: 't' :: 't' :: 'p' :: 's' :: ':' :: '/' :: '/' :: [])
        ('h' :: 't' :: 't' :: 'p' :: ':' :: '/' :: '/' :: rest.data) = none
      simp [stripPre]
    unfold parseScheme
    rw [hfail, hd, stripPre_append]

theorem parseScheme_head_slash (s : String) (h : s.data.head? = some '/') :
    parseScheme s = none := by
  obtain ⟨cs, hcons⟩ : ∃ cs, s.data = '/' :: cs := by
    cases hd : s.data with
    | nil => rw [hd] at h; cases h
    | cons a as =>
      rw [hd] at h
      injection h with h2
      exact ⟨as, by rw [h2]⟩
  unfold parseScheme
  have h1 : stripPre "https://".data s.data = none := by
    rw [hcons]
    show stripPre ('h' :: 't' :: 't' :: 'p' :: 's' :: ':' :: '/' :: '/' :: []) ('/' :: cs) = none
    simp [stripPre]
  have h2 : stripPre "http://".data s.data = none := by
    rw [hcons]
    show stripPre ('h' :: 't' :: 't' :: 'p' :: ':' :: '/' :: '/' :: []) ('/' :: cs) = none
    simp [stripPre]
  rw [h1, h2]

theorem hostChar_auth (c : Char) (h : isHostChar c = true) :
    (c != '/' && c != '?' && c != '#') = true := by
  by_cases h1 : c = '/'
  · subst h1; exact absurd h (by decide)
  · by_cases h2 : c = '?'
    · subst h2; exact absurd h (by decide)
    · by_cases h3 : c = '#'
      · subst h3; exact absurd h (by decide)
      · rw [bne_iff_ne.mpr h1, bne_iff_ne.mpr h2, bne_iff_ne.mpr h3]
        rfl

theorem hostChar_colon (c : Char) (h : isHostChar c = true) : (c != ':') = true := by
  by_cases h1 : c = ':'
  · subst h1; exact absurd h (by decide)
  · exact bne_iff_ne.mpr h1


theorem parseURL_build (sch host path q f : String)
    (hsch : sch = "https" ∨ sch = "http")
    (hhost_ne : host.data ≠ [])
    (hhost : ∀ c ∈ host.data, isHostChar c = true)
    (hpath0 : path.data.head? = some '/')
    (hpathc : ∀ c ∈ path.data, c ≠ '?' ∧ c ≠ '#')
    (hq : q = "" ∨ (q.data.head? = some '?' ∧ ∀ c ∈ q.data, c ≠ '#'))
    (hf : f = "" ∨ f.data.head? = some '#') :
    parseURL (sch ++ "://" ++ host ++ path ++ q ++ f) =
      some ⟨sch, host, "", path, q, f⟩ := by
  have hassoc : sch ++ "://" ++ host ++ path ++ q ++ f =
      (sch ++ "://") ++ (host ++ (path ++ (q ++ f))) := by
    simp [String.append_assoc]
  have hscheme : parseScheme (sch ++ "://" ++ host ++ path ++ q ++ f) =
      some (sch, (host ++ (path ++ (q ++ f))).data) := by
    rw [hassoc]
    exact parseScheme_append sch hsch (host ++ (path ++ (q ++ f)))
  have hR : (host ++ (path ++ (q ++ f))).data =
      host.data ++ (path.data ++ (q.data ++ f.data)) := by
    simp [String.data_append]
  have hauth_head : ∀ c, (path.data ++ (q.data ++ f.data)).head? = some c →
      (c != '/' && c != '?' && c != '#') = false := by
    intro c hc
    obtain ⟨cs, hcons⟩ : ∃ cs, path.data = '/' :: cs := by
      cases hd : path.data with
      | nil => rw [hd] at hpath0; cases hpath0
      | cons a as =>
        rw [hd] at hpath0
        injection hpath0 with h2
        exact ⟨as, by rw [h2]⟩
    rw [hcons] at hc
    injection hc with h2
    subst h2
    rfl
  have htake : (host.data ++ (path.data ++ (q.data ++ f.data))).takeWhile
      (fun c => c != '/' && c != '?' && c != '#') = host.data :=
    takeWhile_append_of (fun c hc => hostChar_auth c (hhost c hc)) hauth_head
  have hdrop : (host.data ++ (path.data ++ (q.data ++ f.data))).dropWhile
      (fun c => c != '/' && c != '?' && c != '#') = path.data ++ (q.data ++ f.data) :=
    dropWhile_append_of (fun c hc => hostChar_auth c (hhost c hc)) hauth_head
  have hhost_take : host.data.takeWhile (fun c => c != ':') = host.data :=
    List.takeWhile_eq_self_iff.mpr (fun c hc => hostChar_colon c (hhost c hc))
  have hhost_drop : host.data.dropWhile (fun c => c != ':') = [] :=
    List.dropWhile_eq_nil_iff.mpr (fun c hc => hostChar_colon c (hhost c hc))
  have hallhost : host.data.all isHostChar = true := List.all_eq_true.mpr hhost
  -- the tail split
  have hpath_ne : path.data ≠ [] := by
    intro hnil
    rw [hnil] at hpath0
    cases hpath0
  have hhash_take : (path.data ++ (q.data ++ f.data)).takeWhile (fun c => c != '#') =
      path.data ++ q.data := by
    rw [← List.append_assoc]
    refine takeWhile_append_of ?_ ?_
    · intro c hc
      rcases List.mem_append.mp hc with h | h
      · exact bne_iff_ne.mpr (hpathc c h).2
      · rcases hq with hq0 | ⟨-, hqc⟩
        · rw [hq0] at h; cases h
        · exact bne_iff_ne.mpr (hqc c h)
    · intro c hc
      rcases hf with hf0 | hf1
      · rw [hf0] at hc; cases hc
      · rw [hf1] at hc
        injection hc with h2
        subst h2
        rfl
  have hhash_drop : (path.data ++ (q.data ++ f.data)).dropWhile (fun c => c != '#') =
      f.data := by
    rw [← List.append_assoc]
    refine dropWhile_append_of ?_ ?_
    · intro c hc
      rcases List.mem_append.mp hc with h | h
      · exact bne_iff_ne.mpr (hpathc c h).2
      · rcases hq with hq0 | ⟨-, hqc⟩
        · rw [hq0] at h; cases h
        · exact bne_iff_ne.mpr (hqc c h)
    · intro c hc
      rcases hf with hf0 | hf1
      · rw [hf0] at hc; cases hc
      · rw [hf1] at hc
        injection hc with h2
        subst h2
        rfl
  have hq_take : (path.data ++ q.data).takeWhile (fun c => c != '?') = path.data := by
    refine takeWhile_append_of ?_ ?_
    · intro c hc
      exact bne_iff_ne.mpr (hpathc c hc).1
    · intro c hc
      rcases hq with hq0 | ⟨hq1, -⟩
      · rw [hq0] at hc; cases hc
      · rw [hq1] at hc
        injection hc with h2
        subst h2
        rfl
  have hq_drop : (path.data ++ q.data).dropWhile (fun c => c != '?') = q.data := by
    refine dropWhile_append_of ?_ ?_
    · intro c hc
      exact bne_iff_ne.mpr (hpathc c hc).1
    · intro c hc
      rcases hq with hq0 | ⟨hq1, -⟩
      · rw [hq0] at hc; cases hc
      · rw [hq1] at hc
        injection hc with h2
        subst h2
        rfl
  have hsplit : splitTail (path.data ++ (q.data ++ f.data)) = (path, q, f) := by
    unfold splitTail
    simp only [hhash_take, hhash_drop, hq_take, hq_drop]
    rw [if_neg hpath_ne]
  unfold parseURL
  rw [hscheme]
  simp only [hR, htake, hdrop, hhost_take, hhost_drop]
  rw [if_neg hhost_ne, hallhost]
  simp only [Bool.not_true, Bool.false_eq_true, if_false]
  rw [hsplit]
  rfl


theorem dropWhile_eq_self_of {p : Char → Bool} {l : List Char}
    (h : ∀ c ∈ l, p c = false) : l.dropWhile p = l := by
  cases l with
  | nil => rfl
  | cons c cs => simp [List.dropWhile_cons, h c (by simp)]

theorem jsTrim_eq_self (s : String) (h : ∀ c ∈ s.data, jsIsWhite c = false) :
    jsTrim s = s := by
  unfold jsTrim
  rw [dropWhile_eq_self_of h,
    dropWhile_eq_self_of (fun c hc => h c (List.mem_reverse.mp hc)),
    List.reverse_reverse]

theorem strEnds_append_right (s t u : String) (h : strEnds t u = true) :
    strEnds (s ++ t) u = true := by
  unfold strEnds at h ⊢
  rw [String.data_append, List.isSuffixOf_iff_suffix]
  rw [List.isSuffixOf_iff_suffix] at h
  exact h.trans (List.suffix_append s.data t.data)

theorem strEnds_json_not_slash (s : String) (h : strEnds s ".json" = true) :
    strEnds s "/" = false := by
  cases hv : strEnds s "/" with
  | false => rfl
  | true =>
    exfalso
    unfold strEnds at h hv
    rw [List.isSuffixOf_iff_suffix] at h hv
    rcases List.suffix_or_suffix_of_suffix hv h with h1 | h2
    · have : ("/".data.isSuffixOf ".json".data) = true :=
        (List.isSuffixOf_iff_suffix).mpr h1
      exact absurd this (by decide)
    · have := h2.length_le
      simp at this

theorem appendJson_of_ends (b : String) (h : strEnds b ".json" = true) :
    appendJson b = b := by
  unfold appendJson
  rw [if_pos h]

theorem str_ne_empty_of_data {s : String} (h : s.data ≠ []) : (s == "") = false := by
  rw [beq_eq_false_iff_ne]
  intro he
  apply h
  rw [he]

theorem normalize_parsed_eq (inputUrl : String) (u : URLRec)
    (hp : parseURL (jsTrim inputUrl) = some u) :
    normalizeRedditUrl inputUrl = normalizeParsed u := by
  simp only [normalizeRedditUrl]
  rw [hp]

theorem normalizeParsed_no_share (u : URLRec)
    (hshare : extractShareToken u.pathname = none) :
    normalizeParsed u =
      appendJson (if stripSuffixOnce (u.origin ++ u.pathname) "/" == "" then u.origin
        else stripSuffixOnce (u.origin ++ u.pathname) "/") := by
  simp only [normalizeParsed, hshare]

theorem origin_no_port (sch host path q f : String) :
    URLRec.origin ⟨sch, host, "", path, q, f⟩ = sch ++ "://" ++ host := by
  simp [URLRec.origin]

theorem normalize_canonical (sch host path q f : String)
    (hsch : sch = "https" ∨ sch = "http")
    (hhost_ne : host.data ≠ [])
    (hhost : ∀ c ∈ host.data, isHostChar c = true)
    (hpath0 : path.data.head? = some '/')
    (hpathc : ∀ c ∈ path.data, c ≠ '?' ∧ c ≠ '#')
    (hq : q = "" ∨ (q.data.head? = some '?' ∧ ∀ c ∈ q.data, c ≠ '#'))
    (hf : f = "" ∨ f.data.head? = some '#')
    (hjson : strEnds path ".json" = true)
    (hshare : extractShareToken path = none)
    (hnws : ∀ c ∈ (sch ++ "://" ++ host ++ path ++ q ++ f).data, jsIsWhite c = false) :
    normalizeRedditUrl (sch ++ "://" ++ host ++ path ++ q ++ f) =
      sch ++ "://" ++ host ++ path := by
  have htrim : jsTrim (sch ++ "://" ++ host ++ path ++ q ++ f) =
      sch ++ "://" ++ host ++ path ++ q ++ f := jsTrim_eq_self _ hnws
  have hparse : parseURL (jsTrim (sch ++ "://" ++ host ++ path ++ q ++ f)) =
      some ⟨sch, host, "", path, q, f⟩ := by
    rw [htrim]
    exact parseURL_build sch host path q f hsch hhost_ne hhost hpath0 hpathc hq hf
  rw [normalize_parsed_eq _ _ hparse, normalizeParsed_no_share _ hshare]
  have horig : URLRec.origin ⟨sch, host, "", path, q, f⟩ = sch ++ "://" ++ host :=
    origin_no_port sch host path q f
  have hpathn : URLRec.pathname ⟨sch, host, "", path, q, f⟩ = path := rfl
  rw [horig, hpathn]
  have hbase_ends : strEnds (sch ++ "://" ++ host ++ path) ".json" = true :=
    strEnds_append_right _ _ _ hjson
  have hbase_noslash : strEnds (sch ++ "://" ++ host ++ path) "/" = false :=
    strEnds_json_not_slash _ hbase_ends
  have hstrip : stripSuffixOnce (sch ++ "://" ++ host ++ path) "/" =
      sch ++ "://" ++ host ++ path := by
    unfold stripSuffixOnce
    rw [hbase_noslash]
    simp
  rw [hstrip]
  have hpath_ne : path.data ≠ [] := by
    intro hnil
    rw [hnil] at hpath0
    cases hpath0
  have hne : ((sch ++ "://" ++ host ++ path) == "") = false := by
    apply str_ne_empty_of_data
    intro he
    apply hpath_ne
    have : (sch ++ "://" ++ host ++ path).data =
        ((sch ++ "://").data ++ host.data) ++ path.data := by
      simp [String.data_append]
    rw [this] at he
    exact (List.append_eq_nil.mp he).2
  rw [hne]
  simp only [Bool.false_eq_true, if_false]
  exact appendJson_of_ends _ hbase_ends

/-- C4 (corrected): an already-canonical endpoint — scheme, well-formed
host, path ending in .json (hence no reappended slash) — whose path does
NOT match the share-token shape is a fixed point of normalizeRedditUrl
regardless of an added query string or fragment, and normalization is
idempotent there. The share-shape exclusion is necessary: a canonical
output whose path is itself share-shaped is re-decoded and changed (see
the counterexample). -/
theorem claim_C4_normalize_idempotent (sch host path q f : String)
    (hsch : sch = "https" ∨ sch = "http")
    (hhost_ne : host.data ≠ [])
    (hhost : ∀ c ∈ host.data, isHostChar c = true)
    (hpath0 : path.data.head? = some '/')
    (hpathc : ∀ c ∈ path.data, c ≠ '?' ∧ c ≠ '#')
    (hq : q = "" ∨ (q.data.head? = some '?' ∧ ∀ c ∈ q.data, c ≠ '#'))
    (hf : f = "" ∨ f.data.head? = some '#')
    (hjson : strEnds path ".json" = true)
    (hshare : extractShareToken path = none)
    (hnws : ∀ c ∈ (sch ++ "://" ++ host ++ path ++ q ++ f).data, jsIsWhite c = false) :
    normalizeRedditUrl (sch ++ "://" ++ host ++ path ++ q ++ f) =
      sch ++ "://" ++ host ++ path ∧
    normalizeRedditUrl (normalizeRedditUrl (sch ++ "://" ++ host ++ path ++ q ++ f)) =
      normalizeRedditUrl (sch ++ "://" ++ host ++ path ++ q ++ f) := by
  have h1 := normalize_canonical sch host path q f hsch hhost_ne hhost hpath0 hpathc
    hq hf hjson hshare hnws
  refine ⟨h1, ?_⟩
  rw [h1]
  have hnws2 : ∀ c ∈ (sch ++ "://" ++ host ++ path ++ "" ++ "").data, jsIsWhite c = false := by
    rw [String.append_empty, String.append_empty]
    intro c hc
    apply hnws c
    simp only [String.data_append, List.mem_append] at hc ⊢
    exact Or.inl (Or.inl hc)
  have h2 := normalize_canonical sch host path "" "" hsch hhost_ne hhost hpath0 hpathc
    (Or.inl rfl) (Or.inl rfl) hjson hshare hnws2
  rw [String.append_empty, String.append_empty] at h2
  rw [h2]

set_option maxHeartbeats 2000000 in
theorem claim_C4_witness :
    normalizeRedditUrl
        ("https" ++ "://" ++ "reddit.com" ++ "/r/test/comments/abc123.json" ++ "?x=1" ++ "#f") =
      "https" ++ "://" ++ "reddit.com" ++ "/r/test/comments/abc123.json" ∧
    normalizeRedditUrl (normalizeRedditUrl
        ("https" ++ "://" ++ "reddit.com" ++ "/r/test/comments/abc123.json" ++ "?x=1" ++ "#f")) =
      normalizeRedditUrl
        ("https" ++ "://" ++ "reddit.com" ++ "/r/test/comments/abc123.json" ++ "?x=1" ++ "#f") :=
  claim_C4_normalize_idempotent "https" "reddit.com" "/r/test/comments/abc123.json" "?x=1" "#f"
    (Or.inl rfl) (by decide) (by decide) (by decide) (by decide)
    (Or.inr (by decide)) (Or.inr (by decide)) (by decide) (by decide) (by decide)

/-- C4 counterexample: the share link
https://reddit.com/r/x/s/L3IvYS9zL0wyWnZidw normalizes (by local token
decoding) to https://reddit.com/r/a/s/L2Zvbw.json — a canonical output
ending in .json with no trailing slash. Because that output's own path
again matches the share-token shape, a second normalization re-decodes
the trailing segment and produces a different string: normalize is not
idempotent on it, contradicting the claim. -/
theorem claim_C4_counterexample :
    normalizeRedditUrl "https://reddit.com/r/x/s/L3IvYS9zL0wyWnZidw" =
      "https://reddit.com/r/a/s/L2Zvbw.json" ∧
    strEnds "https://reddit.com/r/a/s/L2Zvbw.json" ".json" = true ∧
    strEnds "https://reddit.com/r/a/s/L2Zvbw.json" "/" = false ∧
    normalizeRedditUrl "https://reddit.com/r/a/s/L2Zvbw.json" ≠
      "https://reddit.com/r/a/s/L2Zvbw.json" := by decide


theorem splitTail_build (path q f : String)
    (hpath0 : path.data.head? = some '/')
    (hpathc : ∀ c ∈ path.data, c ≠ '?' ∧ c ≠ '#')
    (hq : q = "" ∨ (q.data.head? = some '?' ∧ ∀ c ∈ q.data, c ≠ '#'))
    (hf : f = "" ∨ f.data.head? = some '#') :
    splitTail (path.data ++ (q.data ++ f.data)) = (path, q, f) := by
  have hpath_ne : path.data ≠ [] := by
    intro hnil
    rw [hnil] at hpath0
    cases hpath0
  have hhash_take : (path.data ++ (q.data ++ f.data)).takeWhile (fun c => c != '#') =
      path.data ++ q.data := by
    rw [← List.append_assoc]
    refine takeWhile_append_of ?_ ?_
    · intro c hc
      rcases List.mem_append.mp hc with h | h
      · exact bne_iff_ne.mpr (hpathc c h).2
      · rcases hq with hq0 | ⟨-, hqc⟩
        · rw [hq0] at h; cases h
        · exact bne_iff_ne.mpr (hqc c h)
    · intro c hc
      rcases hf with hf0 | hf1
      · rw [hf0] at hc; cases hc
      · rw [hf1] at hc
        injection hc with h2
        subst h2
        rfl
  have hhash_drop : (path.data ++ (q.data ++ f.data)).dropWhile (fun c => c != '#') =
      f.data := by
    rw [← List.append_assoc]
    refine dropWhile_append_of ?_ ?_
    · intro c hc
      rcases List.mem_append.mp hc with h | h
      · exact bne_iff_ne.mpr (hpathc c h).2
      · rcases hq with hq0 | ⟨-, hqc⟩
        · rw [hq0] at h; cases h
        · exact bne_iff_ne.mpr (hqc c h)
    · intro c hc
      rcases hf with hf0 | hf1
      · rw [hf0] at hc; cases hc
      · rw [hf1] at hc
        injection hc with h2
        subst h2
        rfl
  have hq_take : (path.data ++ q.data).takeWhile (fun c => c != '?') = path.data := by
    refine takeWhile_append_of ?_ ?_
    · intro c hc
      exact bne_iff_ne.mpr (hpathc c hc).1
    · intro c hc
      rcases hq with hq0 | ⟨hq1, -⟩
      · rw [hq0] at hc; cases hc
      · rw [hq1] at hc
        injection hc with h2
        subst h2
        rfl
  have hq_drop : (path.data ++ q.data).dropWhile (fun c => c != '?') = q.data := by
    refine dropWhile_append_of ?_ ?_
    · intro c hc
      exact bne_iff_ne.mpr (hpathc c hc).1
    · intro c hc
      rcases hq with hq0 | ⟨hq1, -⟩
      · rw [hq0] at hc; cases hc
      · rw [hq1] at hc
        injection hc with h2
        subst h2
        rfl
  unfold splitTail
  simp only [hhash_take, hhash_drop, hq_take, hq_drop]
  rw [if_neg hpath_ne]

theorem parseURL_head_slash (s : String) (h : s.data.head? = some '/') :
    parseURL s = none := by
  unfold parseURL
  rw [parseScheme_head_slash s h]

theorem serialize_build (sch host path q f : String) :
    URLRec.serialize ⟨sch, host, "", path, q, f⟩ = sch ++ "://" ++ host ++ path ++ q ++ f := by
  simp [URLRec.serialize, URLRec.origin]

theorem strStarts_slash (s : String) (h : s.data.head? = some '/') :
    strStarts s "/" = true := by
  obtain ⟨cs, hcons⟩ : ∃ cs, s.data = '/' :: cs := by
    cases hd : s.data with
    | nil => rw [hd] at h; cases h
    | cons a as =>
      rw [hd] at h
      injection h with h2
      exact ⟨as, by rw [h2]⟩
  unfold strStarts
  rw [hcons]
  show (['/'] : List Char).isPrefixOf ('/' :: cs) = true
  simp [List.isPrefixOf]

theorem resolve_location_resolved (h0 p0 loc : String) (status : Nat) (resolvedU : URLRec)
    (hh0_ne : h0.data ≠ [])
    (hh0 : ∀ c ∈ h0.data, isHostChar c = true)
    (hp00 : p0.data.head? = some '/')
    (hp0c : ∀ c ∈ p0.data, c ≠ '?' ∧ c ≠ '#')
    (hshape : resolveShapeAccepts p0 = true)
    (hst : 300 ≤ status ∧ status < 400)
    (hbase : parseURLWithBase loc ⟨"https", h0, "", p0, "", ""⟩ = some resolvedU) :
    resolveShareUrlIfNeeded ("https" ++ "://" ++ h0 ++ p0) (some ⟨status, some loc⟩) =
      some resolvedU.serialize := by
  have hurl : "https" ++ "://" ++ h0 ++ p0 = "https" ++ "://" ++ h0 ++ p0 ++ "" ++ "" := by
    rw [String.append_empty, String.append_empty]
  have hparse : parseURL ("https" ++ "://" ++ h0 ++ p0) =
      some ⟨"https", h0, "", p0, "", ""⟩ := by
    rw [hurl]
    exact parseURL_build "https" h0 p0 "" "" (Or.inl rfl) hh0_ne hh0 hp00 hp0c
      (Or.inl rfl) (Or.inl rfl)
  rw [resolve_reduce_some ⟨status, some loc⟩ hparse hshape]
  have hcond : ((decide (status < 300) || decide (status ≥ 400)) = true) → False := by
    rw [Bool.or_eq_true, decide_eq_true_eq, decide_eq_true_eq]
    rintro (h | h) <;> omega
  rw [if_neg hcond]
  simp only [hbase]

/-- C5 (corrected): with a share-shaped URL and a 3xx probe response
carrying a location header, resolveShareUrlIfNeeded returns the location
re-serialized by the URL constructor: for an absolute location this is
the header value itself exactly when that value is already in serialized
form (lowercase scheme and host, no default port, explicit path) — an
absolute location containing, e.g., an explicit default port is returned
with the port dropped, not verbatim — and a path-absolute relative
location is resolved against the original URL's origin. -/
theorem claim_C5_location_resolution :
    (∀ h0 p0 : String, ∀ status : Nat, ∀ lsch lhost lpath lq lf : String,
      ∀ hst : 300 ≤ status ∧ status < 400,
      h0.data ≠ [] → (∀ c ∈ h0.data, isHostChar c = true) →
      p0.data.head? = some '/' → (∀ c ∈ p0.data, c ≠ '?' ∧ c ≠ '#') →
      resolveShapeAccepts p0 = true →
      (lsch = "https" ∨ lsch = "http") → lhost.data ≠ [] →
      (∀ c ∈ lhost.data, isHostChar c = true) →
      lpath.data.head? = some '/' → (∀ c ∈ lpath.data, c ≠ '?' ∧ c ≠ '#') →
      (lq = "" ∨ (lq.data.head? = some '?' ∧ ∀ c ∈ lq.data, c ≠ '#')) →
      (lf = "" ∨ lf.data.head? = some '#') →
      resolveShareUrlIfNeeded ("https" ++ "://" ++ h0 ++ p0)
        (some ⟨status, some (lsch ++ "://" ++ lhost ++ lpath ++ lq ++ lf)⟩) =
        some (lsch ++ "://" ++ lhost ++ lpath ++ lq ++ lf)) ∧
    (∀ h0 p0 : String, ∀ status : Nat, ∀ lpath lq lf : String,
      ∀ hst : 300 ≤ status ∧ status < 400,
      h0.data ≠ [] → (∀ c ∈ h0.data, isHostChar c = true) →
      p0.data.head? = some '/' → (∀ c ∈ p0.data, c ≠ '?' ∧ c ≠ '#') →
      resolveShapeAccepts p0 = true →
      lpath.data.head? = some '/' → (∀ c ∈ lpath.data, c ≠ '?' ∧ c ≠ '#') →
      (lq = "" ∨ (lq.data.head? = some '?' ∧ ∀ c ∈ lq.data, c ≠ '#')) →
      (lf = "" ∨ lf.data.head? = some '#') →
      strStarts (lpath ++ lq ++ lf) "//" = false →
      resolveShareUrlIfNeeded ("https" ++ "://" ++ h0 ++ p0)
        (some ⟨status, some (lpath ++ lq ++ lf)⟩) =
        some ("https" ++ "://" ++ h0 ++ lpath ++ lq ++ lf)) := by
  constructor
  · intro h0 p0 status lsch lhost lpath lq lf hst hh0_ne hh0 hp00 hp0c hshape
      hlsch hlhost_ne hlhost hlpath0 hlpathc hlq hlf
    have habs : parseURLWithBase (lsch ++ "://" ++ lhost ++ lpath ++ lq ++ lf)
        ⟨"https", h0, "", p0, "", ""⟩ = some ⟨lsch, lhost, "", lpath, lq, lf⟩ := by
      unfold parseURLWithBase
      rw [parseURL_build lsch lhost lpath lq lf hlsch hlhost_ne hlhost hlpath0
        hlpathc hlq hlf]
    rw [resolve_location_resolved h0 p0 _ status _ hh0_ne hh0 hp00 hp0c hshape hst habs]
    rw [serialize_build]
  · intro h0 p0 status lpath lq lf hst hh0_ne hh0 hp00 hp0c hshape
      hlpath0 hlpathc hlq hlf hnotpp
    have hlochead : (lpath ++ lq ++ lf).data.head? = some '/' := by
      obtain ⟨cs, hcons⟩ : ∃ cs, lpath.data = '/' :: cs := by
        cases hd : lpath.data with
        | nil => rw [hd] at hlpath0; cases hlpath0
        | cons a as =>
          rw [hd] at hlpath0
          injection hlpath0 with h2
          exact ⟨as, by rw [h2]⟩
      have : (lpath ++ lq ++ lf).data = '/' :: (cs ++ lq.data ++ lf.data) := by
        simp [String.data_append, hcons]
      rw [this]
      rfl
    have hrel : parseURLWithBase (lpath ++ lq ++ lf) ⟨"https", h0, "", p0, "", ""⟩ =
        some ⟨"https", h0, "", lpath, lq, lf⟩ := by
      unfold parseURLWithBase
      rw [parseURL_head_slash _ hlochead]
      rw [strStarts_slash _ hlochead, hnotpp]
      simp only [Bool.not_false, Bool.and_true, if_true]
      have hdata : (lpath ++ lq ++ lf).data = lpath.data ++ (lq.data ++ lf.data) := by
        simp [String.data_append]
      rw [hdata, splitTail_build lpath lq lf hlpath0 hlpathc hlq hlf]
    rw [resolve_location_resolved h0 p0 _ status _ hh0_ne hh0 hp00 hp0c hshape hst hrel]
    rw [serialize_build]

set_option maxHeartbeats 2000000 in
theorem claim_C5_witness :
    resolveShareUrlIfNeeded ("https" ++ "://" ++ "www.reddit.com" ++ "/r/example/s/token")
      (some ⟨301, some ("https" ++ "://" ++ "www.reddit.com" ++
        "/r/example/comments/abc123" ++ "?x=1" ++ "")⟩) =
      some ("https" ++ "://" ++ "www.reddit.com" ++ "/r/example/comments/abc123" ++
        "?x=1" ++ "") ∧
    resolveShareUrlIfNeeded ("https" ++ "://" ++ "www.reddit.com" ++ "/r/example2/s/token2")
      (some ⟨302, some ("/r/example2/comments/def456" ++ "" ++ "")⟩) =
      some ("https" ++ "://" ++ "www.reddit.com" ++ "/r/example2/comments/def456" ++
        "" ++ "") :=
  ⟨claim_C5_location_resolution.1 "www.reddit.com" "/r/example/s/token" 301
      "https" "www.reddit.com" "/r/example/comments/abc123" "?x=1" ""
      (by omega) (by decide) (by decide) (by decide) (by decide) (by decide)
      (Or.inl rfl) (by decide) (by decide) (by decide) (by decide)
      (Or.inr (by decide)) (Or.inl rfl),
   claim_C5_location_resolution.2 "www.reddit.com" "/r/example2/s/token2" 302
      "/r/example2/comments/def456" "" ""
      (by omega) (by decide) (by decide) (by decide) (by decide) (by decide)
      (by decide) (by decide) (Or.inl rfl) (Or.inl rfl) (by decide)⟩

/-- C5 counterexample: an absolute location header carrying an explicit
default port is a legitimate absolute URL, but the resolver returns the
WHATWG re-serialization (default port dropped), not the header value
verbatim, so the claim's "absolute location verbatim" fails. -/
theorem claim_C5_counterexample :
    resolveShareUrlIfNeeded "https://www.reddit.com/r/example/s/token"
      (some ⟨301, some "https://www.reddit.com:443/r/example/comments/abc123"⟩) =
      some "https://www.reddit.com/r/example/comments/abc123" ∧
    some "https://www.reddit.com/r/example/comments/abc123" ≠
      some "https://www.reddit.com:443/r/example/comments/abc123" := by decide

end RedditSummarizer
